import Mathlib

/-!
Shallow embedding of the network subsystem of the ElectrumSV repository
(file electrumsv/network.py), together with theorems settling the claims
of the specification against it.

Conventions used throughout:
 - Python numbers that are used as unix timestamps (results of time.time())
   are modelled as rationals, since they may be non-integral floats.
 - Block heights and protocol-version components are modelled as naturals.
 - Byte strings are modelled as lists of naturals; the external double_sha256
   function (from the bitcoinx library, not part of this repository) is an
   abstract parameter of the Merkle-proof fold.
 - Python dictionaries are modelled as association lists whose lookup finds
   the first matching key.
 - Fallible code (raise) returns Option or Except.
-/

namespace ElectrumSV

/-- Source constant ONE_DAY = 24 * 3600 (network.py line 63). -/
def ONE_DAY : ℚ := 24 * 3600

/-! ### DisconnectSessionError (network.py lines 144-148) -/

/-- The data carried by the DisconnectSessionError exception class. -/
structure DisconnectSessionError where
  reason : String
  blacklist : Bool
deriving DecidableEq

/-- Embedding of DisconnectSessionError.__init__ (lines 146-148).  The source
body is: super().__init__(reason); self.blacklist = False.  Note that it
assigns the literal False, never the keyword argument. -/
def DisconnectSessionError.init (reason : String) (_blacklist : Bool) :
    DisconnectSessionError :=
  { reason := reason, blacklist := false }

/-! ### SVServerState (network.py lines 151-183) -/

/-- The run-time state of an SVServer (lines 154-160). -/
structure SVServerState where
  banner : String
  donation_address : String
  last_try : ℚ
  last_good : ℚ
  last_blacklisted : ℚ
  retry_delay : ℚ
deriving DecidableEq

/-- SVServerState.__init__ (lines 154-160): all strings empty, all numbers 0. -/
def SVServerState.init : SVServerState :=
  { banner := "", donation_address := "", last_try := 0, last_good := 0,
    last_blacklisted := 0, retry_delay := 0 }

/-- SVServerState.is_blacklisted (lines 165-166):
return self.last_blacklisted > now - ONE_DAY. -/
def SVServerState.is_blacklisted (s : SVServerState) (now : ℚ) : Bool :=
  decide (s.last_blacklisted > now - ONE_DAY)

/-- SVServerState.can_retry (lines 162-163):
return not self.is_blacklisted(now) and self.last_try + self.retry_delay < now. -/
def SVServerState.can_retry (s : SVServerState) (now : ℚ) : Bool :=
  !(s.is_blacklisted now) && decide (s.last_try + s.retry_delay < now)

/-- The JSON dictionary produced by SVServerState.to_json: exactly the three
keys last_try, last_good, last_blacklisted with integer values. -/
structure SVServerStateJson where
  last_try : ℤ
  last_good : ℤ
  last_blacklisted : ℤ
deriving DecidableEq

/-- Python int() applied to a (non-negative or negative) real number truncates
toward zero. -/
def pyInt (q : ℚ) : ℤ :=
  if 0 ≤ q then ⌊q⌋ else ⌈q⌉

/-- SVServerState.to_json (lines 168-173): each timestamp is passed through
int(), i.e. truncated. -/
def SVServerState.to_json (s : SVServerState) : SVServerStateJson :=
  { last_try := pyInt s.last_try, last_good := pyInt s.last_good,
    last_blacklisted := pyInt s.last_blacklisted }

/-- SVServerState.from_json (lines 175-180): start from a fresh state and set
each attribute present in the dictionary (the three timestamp keys). -/
def SVServerState.from_json (j : SVServerStateJson) : SVServerState :=
  { SVServerState.init with
    last_try := (j.last_try : ℚ), last_good := (j.last_good : ℚ),
    last_blacklisted := (j.last_blacklisted : ℚ) }

/-! ### Merkle proof fold: _root_from_proof (network.py lines 131-141) -/

/-- Embedding of the function at lines 131-141 of network.py: fold over the
branch, combining with dsha256(elt + hash) when the low bit of index is set
and dsha256(hash + elt) otherwise, halving index each step; raise ValueError
(modelled as none) when index is nonzero once the branch is exhausted.
double_sha256 comes from the external bitcoinx library, so it is an abstract
parameter dsha here. -/
def root_from_proof (dsha : List ℕ → List ℕ) (hash : List ℕ)
    (branch : List (List ℕ)) (index : ℕ) : Option (List ℕ) :=
  match branch with
  | [] => if index ≠ 0 then none else some hash
  | elt :: rest =>
      root_from_proof dsha
        (if index &&& 1 ≠ 0 then dsha (elt ++ hash) else dsha (hash ++ elt))
        rest (index >>> 1)

/-- The specification's description of merkle_root_from_branch, written from
the words of the spec for comparison with the source embedding: starting from
leaf, for each sibling elt in branch, if the index is odd replace leaf by
dsha256(elt concat leaf), else by dsha256(leaf concat elt), right-shifting the
index each step; fail if the index is nonzero at the end. -/
def merkle_root_from_branch_spec (dsha : List ℕ → List ℕ) (leaf : List ℕ)
    (branch : List (List ℕ)) (index : ℕ) : Option (List ℕ) :=
  let final := branch.foldl
    (fun st elt =>
      (if st.2 % 2 = 1 then dsha (elt ++ st.1) else dsha (st.1 ++ elt), st.2 >>> 1))
    (leaf, index)
  if final.2 = 0 then some final.1 else none

/-! ### Reconnect back-off: SVServer.connect (network.py lines 247-254) -/

/-- The retry-delay update performed at the start of SVServer.connect
(line 250): self.state.retry_delay = max(10, min(self.state.retry_delay * 2 + 1, 600)). -/
def connect_retry_update (retry_delay : ℕ) : ℕ :=
  max 10 (min (retry_delay * 2 + 1) 600)

/-- retry_delay after k consecutive connect attempts with no intervening
reset, starting from the initial value 0 (SVServerState.__init__ line 160). -/
def retry_delay_after : ℕ → ℕ
  | 0 => 0
  | k + 1 => connect_retry_update (retry_delay_after k)

/-- clamp as written in the specification. -/
def clamp (x lo hi : ℕ) : ℕ := max lo (min x hi)

/-- The specification's recurrence r_(k+1) = clamp(2 r_k + 1, 10, 600) with
r_0 = 0, written from the words of the spec for comparison. -/
def spec_retry : ℕ → ℕ
  | 0 => 0
  | k + 1 => clamp (2 * spec_retry k + 1) 10 600

/-! ### Header chunk request: SVSession._request_chunk (network.py lines 475-507) -/

/-- The cp_height argument computed by _request_chunk (lines 482-484) and sent
with the blockchain.block.headers request:
cp_height = app_state.headers.checkpoint.height;
if height + count >= cp_height: cp_height = 0. -/
def request_chunk_cp_height (checkpoint_height height count : ℕ) : ℕ :=
  if height + count ≥ checkpoint_height then 0 else checkpoint_height

/-! ### Lagging-session refresh: Network._maybe_switch_main_server
(network.py lines 992-1008) -/

/-- The per-session data consulted by the lagging check: the session tip
height and the server state last_good timestamp. -/
structure LagSession where
  tip_height : ℤ
  last_good : ℚ
deriving DecidableEq

/-- max((session.tip.height for session in sessions), default=0) (line 994). -/
def max_tip_height : List LagSession → ℤ
  | [] => 0
  | s :: rest => rest.foldl (fun acc t => max acc t.tip_height) s.tip_height

/-- The refresh loop of _maybe_switch_main_server (lines 994-997): for every
session whose tip height exceeds max_height - 2, set the server state
last_good to now; other sessions are left untouched. -/
def mark_good_sessions (now : ℚ) (sessions : List LagSession) : List LagSession :=
  let m := max_tip_height sessions
  sessions.map (fun s =>
    if s.tip_height > m - 2 then { s with last_good := now } else s)

/-! ### Server registry: SVServer.__init__ and SVServer.unique
(network.py lines 186-216) -/

/-- Python list-starts-with test on characters (helper for the substring
semantics of the Python operator in on strings). -/
def charsStartWith : List Char → List Char → Bool
  | [], _ => true
  | _ :: _, [] => false
  | a :: xs, b :: ys => a == b && charsStartWith xs ys

/-- Python "needle in hay" for strings: contiguous-substring test.  In
particular the empty string is a substring of everything, and a string is a
substring of itself. -/
def pyStrIn (needle hay : String) : Bool :=
  go needle.toList hay.toList
where
  go (n : List Char) : List Char → Bool
    | [] => n.isEmpty
    | c :: rest => charsStartWith n (c :: rest) || go n rest

/-- The interned key of an SVServer: (host, port, protocol). -/
abbrev ServerKey := String × ℤ × String

/-- Embedding of SVServer.__init__ (lines 191-205) acting on the process-wide
intern table all_servers (modelled as the list of interned keys).  Raises
ValueError (modelled as Except.error) for an empty host or a protocol p with
"p not in 'st'" — the Python substring test.  The isinstance checks hold by
typing here (host is a string, port an integer).  Asserts that the key is not
already interned, then adds it. -/
def SVServer.init (all_servers : List ServerKey) (host : String) (port : ℤ)
    (protocol : String) : Except String (List ServerKey) :=
  if host = "" then .error ("bad host: " ++ host)
  else if !pyStrIn protocol "st" then .error ("unknown protocol: " ++ protocol)
  else if (host, port, protocol) ∈ all_servers then .error "assertion failed"
  else .ok (all_servers ++ [(host, port, protocol)])

/-- Embedding of SVServer.unique (lines 207-216) for an integer port (the
string-coercion branch does not apply): return the interned instance when the
key is present, otherwise construct (and intern) a new one. -/
def SVServer.unique (all_servers : List ServerKey) (host : String) (port : ℤ)
    (protocol : String) : Except String (List ServerKey) :=
  if (host, port, protocol) ∈ all_servers then .ok all_servers
  else SVServer.init all_servers host port protocol

/-! ### Subscription table: SVSession class state and the
subscribe/unsubscribe operations (network.py lines 824-898) -/

/-- Look up a wallet key in the subs-by-wallet dictionary (first match). -/
def lookupW : List (ℕ × List String) → ℕ → Option (List String)
  | [], _ => none
  | (w, ss) :: rest, x => if w = x then some ss else lookupW rest x

/-- Remove a wallet key from the subs-by-wallet dictionary (dict.pop). -/
def eraseW : List (ℕ × List String) → ℕ → List (ℕ × List String)
  | [], _ => []
  | (w, ss) :: rest, x => if w = x then rest else (w, ss) :: eraseW rest x

/-- Set a wallet key in the subs-by-wallet dictionary. -/
def setW : List (ℕ × List String) → ℕ → List String → List (ℕ × List String)
  | [], x, v => [(x, v)]
  | (w, ss) :: rest, x, v =>
      if w = x then (x, v) :: rest else (w, ss) :: setW rest x v

/-- Remove a script-hash key from the address map (del). -/
def eraseA : List (String × String) → String → List (String × String)
  | [], _ => []
  | (k, v) :: rest, x => if k = x then rest else (k, v) :: eraseA rest x

/-- Set a script-hash key in the address map. -/
def setA : List (String × String) → String → String → List (String × String)
  | [], x, v => [(x, v)]
  | (k, w) :: rest, x, v =>
      if k = x then (x, v) :: rest else (k, w) :: setA rest x v

/-- Python list.remove: delete the first occurrence. -/
def removeFirst : List String → String → List String
  | [], _ => []
  | h :: t, x => if h = x then t else h :: removeFirst t x

/-- The process-wide SVSession class state touched by the subscription
operations: _subs_by_wallet (wallet -> list of script hashes; wallets are
identified by naturals) and _address_map (script hash -> address). -/
structure SubsState where
  subs_by_wallet : List (ℕ × List String)
  address_map : List (String × String)
deriving DecidableEq

/-- SVSession._get_exclusive_set (lines 867-878): the script hashes of subs
that no wallet other than the given one is subscribed to.  The source builds
set(subs) and subtracts every other wallet's set; set iteration order is
unspecified, modelled by deduplicating subs. -/
def get_exclusive_set (table : List (ℕ × List String)) (wallet : ℕ)
    (subs : List String) : List String :=
  subs.dedup.filter (fun sh =>
    table.all (fun p => decide (p.1 = wallet) || !(decide (sh ∈ p.2))))

/-- Python tuple less-than, lexicographic with length tie-breaking, as used by
session.ptuple < (1, 4, 2). -/
def pyTupleLt : List ℕ → List ℕ → Bool
  | _, [] => false
  | [], _ :: _ => true
  | a :: xs, b :: ys => a < b || (a == b && pyTupleLt xs ys)

/-- The loop of SVSession.unsubscribe_from_pairs (lines 856-865): for each
(address, script_hash) pair, skip it unless the script hash is in the
exclusive set and still in subs; otherwise remove it from subs and from the
address map and issue the network unsubscribe (recorded in the issued list). -/
def unsubscribe_loop (exclusive : List String) :
    List (String × String) → List String → List (String × String) →
    List String → List String × List (String × String) × List String
  | [], subs, amap, issued => (subs, amap, issued)
  | (_, sh) :: rest, subs, amap, issued =>
      if sh ∈ exclusive then
        if sh ∈ subs then
          unsubscribe_loop exclusive rest (removeFirst subs sh) (eraseA amap sh)
            (issued ++ [sh])
        else unsubscribe_loop exclusive rest subs amap issued
      else unsubscribe_loop exclusive rest subs amap issued

/-- SVSession.unsubscribe_from_pairs (lines 850-865).  Looks up the wallet's
subs list (KeyError, i.e. none, when the wallet is not registered), computes
the exclusive set once, then runs the loop.  Returns the new class state and
the list of script hashes for which a blockchain.scripthash.unsubscribe
request was issued.  Note the source consults nothing else: in particular it
never looks at the session's negotiated ptuple. -/
def unsubscribe_from_pairs (st : SubsState) (wallet : ℕ)
    (pairs : List (String × String)) : Option (SubsState × List String) :=
  match lookupW st.subs_by_wallet wallet with
  | none => none
  | some subs =>
      let exclusive := get_exclusive_set st.subs_by_wallet wallet subs
      let r := unsubscribe_loop exclusive pairs subs st.address_map []
      some ({ subs_by_wallet := setW st.subs_by_wallet wallet r.1,
              address_map := r.2.1 }, r.2.2)

/-- SVSession.unsubscribe_wallet (lines 880-898).  Pops the wallet from
_subs_by_wallet (returning unchanged state when absent); returns early when
there is no session, when the exclusive set is empty, or when the session's
ptuple is below (1, 4, 2); otherwise issues one unsubscribe per exclusive
script hash.  The address map is not touched. -/
def unsubscribe_wallet (st : SubsState) (wallet : ℕ) (has_session : Bool)
    (ptuple : List ℕ) : SubsState × List String :=
  match lookupW st.subs_by_wallet wallet with
  | none => (st, [])
  | some subs =>
      let st1 : SubsState := { st with subs_by_wallet := eraseW st.subs_by_wallet wallet }
      if !has_session then (st1, [])
      else
        let exclusive := get_exclusive_set st1.subs_by_wallet wallet subs
        if exclusive.isEmpty then (st1, [])
        else if pyTupleLt ptuple [1, 4, 2] then (st1, [])
        else (st1, exclusive)

/-- SVSession.subscribe_to_pairs (lines 824-848), state part: ensure the
wallet has an entry, append every script hash of pairs to it in order, and
record each (script hash -> address) in the address map. -/
def subscribe_to_pairs (st : SubsState) (wallet : ℕ)
    (pairs : List (String × String)) : SubsState :=
  let subs0 := (lookupW st.subs_by_wallet wallet).getD []
  { subs_by_wallet := setW st.subs_by_wallet wallet (subs0 ++ pairs.map (·.2)),
    address_map := pairs.foldl (fun m p => setA m p.2 p.1) st.address_map }

/-- The list named subs at the final assertion of subscribe_to_pairs
(line 848): the wallet's previous subs list with every script hash of pairs
appended.  The assertion len(set(subs)) == len(subs) holds exactly when this
list has no duplicates. -/
def subscribe_to_pairs_subs (st : SubsState) (wallet : ℕ)
    (pairs : List (String × String)) : List String :=
  ((lookupW st.subs_by_wallet wallet).getD []) ++ pairs.map (·.2)

/-! ## Helper lemmas -/

/-- Unfolding lemma for the spec-side Merkle fold on a cons cell. -/
theorem merkle_spec_cons (dsha : List ℕ → List ℕ) (leaf elt : List ℕ)
    (rest : List (List ℕ)) (index : ℕ) :
    merkle_root_from_branch_spec dsha leaf (elt :: rest) index =
      merkle_root_from_branch_spec dsha
        (if index % 2 = 1 then dsha (elt ++ leaf) else dsha (leaf ++ elt))
        rest (index >>> 1) := by
  by_cases h : index % 2 = 1 <;>
    simp [merkle_root_from_branch_spec, List.foldl_cons, h]

/-- The source Merkle fold agrees with the one described by the spec. -/
theorem root_from_proof_eq_spec (dsha : List ℕ → List ℕ) :
    ∀ (branch : List (List ℕ)) (leaf : List ℕ) (index : ℕ),
      root_from_proof dsha leaf branch index =
        merkle_root_from_branch_spec dsha leaf branch index := by
  intro branch
  induction branch with
  | nil =>
      intro leaf index
      by_cases h : index = 0 <;>
        simp [root_from_proof, merkle_root_from_branch_spec, h]
  | cons elt rest ih =>
      intro leaf index
      rw [merkle_spec_cons]
      simp only [root_from_proof]
      rw [ih]
      simp only [ne_eq, Nat.and_one_is_mod]
      rcases Nat.mod_two_eq_zero_or_one index with h | h <;> simp [h]

/-- The source Merkle fold fails exactly when the index, right-shifted once
per branch element, is still nonzero. -/
theorem root_from_proof_none_iff (dsha : List ℕ → List ℕ) :
    ∀ (branch : List (List ℕ)) (leaf : List ℕ) (index : ℕ),
      (root_from_proof dsha leaf branch index = none ↔
        index >>> branch.length ≠ 0) := by
  intro branch
  induction branch with
  | nil =>
      intro leaf index
      by_cases h : index = 0 <;> simp [root_from_proof, h]
  | cons elt rest ih =>
      intro leaf index
      simp only [root_from_proof]
      rw [ih]
      have : index >>> (elt :: rest).length = (index >>> 1) >>> rest.length := by
        rw [List.length_cons, Nat.add_comm, Nat.shiftRight_add]
      rw [this]

/-- Entries whose key differs from the popped wallet survive dict.pop. -/
theorem mem_eraseW_of_ne {table : List (ℕ × List String)} {wallet : ℕ}
    {p : ℕ × List String} (hp : p ∈ table) (hne : p.1 ≠ wallet) :
    p ∈ eraseW table wallet := by
  induction table with
  | nil => exact absurd hp (List.not_mem_nil p)
  | cons q rest ih =>
      obtain ⟨w, ss⟩ := q
      simp only [eraseW]
      rcases List.mem_cons.mp hp with h | h
      · subst h
        rw [if_neg hne]
        exact List.mem_cons_self _ _
      · by_cases hw : w = wallet
        · rw [if_pos hw]
          exact h
        · rw [if_neg hw]
          exact List.mem_cons_of_mem _ (ih h)

/-- Membership in the exclusive set means membership in the wallet's own subs
and absence from every other wallet's subs in the consulted table. -/
theorem mem_exclusive {table : List (ℕ × List String)} {wallet : ℕ}
    {subs : List String} {sh : String}
    (h : sh ∈ get_exclusive_set table wallet subs) :
    sh ∈ subs ∧ ∀ p ∈ table, p.1 ≠ wallet → sh ∉ p.2 := by
  unfold get_exclusive_set at h
  have h1 : sh ∈ subs.dedup := List.mem_of_mem_filter h
  have h2 := List.of_mem_filter h
  refine ⟨List.mem_dedup.mp h1, ?_⟩
  intro p hp hne
  have h3 := List.all_eq_true.mp h2 p hp
  simp [hne] at h3
  exact h3

/-- Every script hash issued by the unsubscribe loop was already issued or
belongs to the exclusive set. -/
theorem unsubscribe_loop_issued_sub (exclusive : List String) :
    ∀ (pairs : List (String × String)) (subs : List String)
      (amap : List (String × String)) (issued : List String) (sh : String),
      sh ∈ (unsubscribe_loop exclusive pairs subs amap issued).2.2 →
      sh ∈ issued ∨ sh ∈ exclusive := by
  intro pairs
  induction pairs with
  | nil =>
      intro subs amap issued sh h
      exact Or.inl h
  | cons pr rest ih =>
      intro subs amap issued sh h
      obtain ⟨addr, psh⟩ := pr
      simp only [unsubscribe_loop] at h
      by_cases hc : psh ∈ exclusive
      · rw [if_pos hc] at h
        by_cases hc2 : psh ∈ subs
        · rw [if_pos hc2] at h
          rcases ih _ _ _ _ h with hi | he
          · rcases List.mem_append.mp hi with h1 | h1
            · exact Or.inl h1
            · right
              have : sh = psh := by simpa using h1
              exact this ▸ hc
          · exact Or.inr he
        · rw [if_neg hc2] at h
          exact ih _ _ _ _ h
      · rw [if_neg hc] at h
        exact ih _ _ _ _ h

/-- Looking up a key just set in the subs-by-wallet dictionary returns the
set value. -/
theorem lookupW_setW (t : List (ℕ × List String)) (w : ℕ) (v : List String) :
    lookupW (setW t w v) w = some v := by
  induction t with
  | nil => simp [setW, lookupW]
  | cons p rest ih =>
      obtain ⟨a, b⟩ := p
      by_cases h : a = w <;> simp [setW, lookupW, h, ih]

/-! ## Claim theorems -/

/-- C1: the claim says the constructor argument is authoritative, i.e.
DisconnectSessionError(reason, blacklist=b) has blacklist equal to b.  The
constructor in the source assigns the literal False instead, so the attribute
is false even when the caller passes blacklist=True: the session catching the
exception (SVServer.connect, lines 259-260) then never blacklists.  This
theorem evaluates the constructor at the failing input and also shows the
attribute is false for every argument. -/
theorem claim_C1_blacklist_argument_ignored :
    (DisconnectSessionError.init "bad header" true).blacklist = false ∧
    ∀ (reason : String) (b : Bool),
      (DisconnectSessionError.init reason b).blacklist = false := by
  exact ⟨rfl, fun _ _ => rfl⟩

/-- C2, counterexample: with checkpoint height 10, a request for 6 headers
from height 5 covers heights 5..10, a range ending exactly at the checkpoint,
so the claim predicts cp_height = 10; the code compares height + count >= 10
and sends cp_height = 0. -/
theorem claim_C2_counterexample :
    request_chunk_cp_height 10 5 6 = 0 ∧ 5 + 6 - 1 ≤ 10 := by
  decide

/-- C2, amended: the cp_height argument sent with the
blockchain.block.headers request equals the checkpoint height if and only if
the requested range ends strictly below the checkpoint (height + count <
checkpoint height); it is 0 whenever height + count reaches the checkpoint
height. -/
theorem claim_C2_cp_height_strict (cp height count : ℕ) (hcp : 0 < cp) :
    (request_chunk_cp_height cp height count = cp ↔ height + count < cp) ∧
    (cp ≤ height + count → request_chunk_cp_height cp height count = 0) := by
  unfold request_chunk_cp_height
  refine ⟨⟨?_, ?_⟩, ?_⟩
  · intro h
    by_cases hc : height + count ≥ cp
    · rw [if_pos hc] at h
      omega
    · omega
  · intro h
    rw [if_neg (by omega)]
  · intro h
    rw [if_pos (by omega)]

/-- C2, witness for the amended theorem at checkpoint 10, height 3,
count 4. -/
theorem claim_C2_witness :
    (request_chunk_cp_height 10 3 4 = 10 ↔ 3 + 4 < 10) ∧
    (10 ≤ 3 + 4 → request_chunk_cp_height 10 3 4 = 0) :=
  claim_C2_cp_height_strict 10 3 4 (by decide)

/-- C3, counterexample: a server with last_try = 99990, retry_delay = 10 and
no blacklisting satisfies last_try + retry_delay = 100000 = now, so the claim
predicts can_retry(100000) = true; the source comparison is strict and
returns false. -/
theorem claim_C3_counterexample :
    SVServerState.can_retry
      { SVServerState.init with last_try := 99990, retry_delay := 10 }
      100000 = false ∧
    SVServerState.is_blacklisted
      { SVServerState.init with last_try := 99990, retry_delay := 10 }
      100000 = false ∧
    ({ SVServerState.init with last_try := 99990, retry_delay := 10 }
      : SVServerState).last_try +
      ({ SVServerState.init with last_try := 99990, retry_delay := 10 }
        : SVServerState).retry_delay ≤ 100000 := by
  refine ⟨?_, ?_, ?_⟩
  · simp [SVServerState.can_retry, SVServerState.is_blacklisted,
      SVServerState.init, ONE_DAY]
    norm_num
  · simp [SVServerState.is_blacklisted, SVServerState.init, ONE_DAY]
    norm_num
  · show (99990 : ℚ) + 10 ≤ 100000
    norm_num

/-- C3, amended: can_retry(now) is true exactly when the server is not
blacklisted at now and last_try + retry_delay is strictly less than now (at
exact equality it returns false); is_blacklisted(now) is exactly
last_blacklisted > now - 86400. -/
theorem claim_C3_can_retry_strict (s : SVServerState) (now : ℚ) :
    (s.can_retry now = true ↔
      s.is_blacklisted now = false ∧ s.last_try + s.retry_delay < now) ∧
    (s.is_blacklisted now = true ↔ s.last_blacklisted > now - ONE_DAY) := by
  constructor
  · simp [SVServerState.can_retry, Bool.and_eq_true, Bool.not_eq_true']
  · simp [SVServerState.is_blacklisted]

/-- C4: the source fold of _root_from_proof coincides with the fold described
by the claim (combine with dsha256(elt concat leaf) at odd index, with
dsha256(leaf concat elt) at even index, right-shifting the index each step);
it fails exactly when the index is nonzero after being shifted once per
branch element; an empty branch with index 0 returns the leaf unchanged, and
an empty branch with index 3 fails. -/
theorem claim_C4_root_from_proof (dsha : List ℕ → List ℕ) (leaf : List ℕ)
    (branch : List (List ℕ)) (index : ℕ) :
    root_from_proof dsha leaf branch index =
      merkle_root_from_branch_spec dsha leaf branch index ∧
    (root_from_proof dsha leaf branch index = none ↔
      index >>> branch.length ≠ 0) ∧
    root_from_proof dsha leaf [] 0 = some leaf ∧
    root_from_proof dsha leaf [] 3 = none := by
  exact ⟨root_from_proof_eq_spec dsha branch leaf index,
    root_from_proof_none_iff dsha branch leaf index, rfl, rfl⟩

/-- C5, counterexample: with sessions at tip heights 10 and 8, the session at
height 8 is within 2 of the maximum (10 - 8 <= 2), so the claim predicts its
last_good is refreshed; the source condition tip.height > max_height - 2 is
false at 8 and leaves it untouched. -/
theorem claim_C5_counterexample :
    mark_good_sessions 5 [⟨10, 0⟩, ⟨8, 0⟩] = [⟨10, 5⟩, ⟨8, 0⟩] ∧
    max_tip_height [⟨10, 0⟩, ⟨8, 0⟩] - 8 ≤ 2 := by
  constructor
  · rfl
  · decide

/-- C5, amended: on every run of the lagging check, exactly the sessions
whose tip height is within 1 of the maximum tip height (max_height -
tip.height <= 1) have their server's last_good set to the current time;
sessions 2 or more blocks behind are left unchanged. -/
theorem claim_C5_within_one (now : ℚ) (sessions : List LagSession) :
    mark_good_sessions now sessions =
      sessions.map (fun s =>
        if max_tip_height sessions - s.tip_height ≤ 1 then
          { s with last_good := now }
        else s) := by
  show sessions.map (fun s =>
      if s.tip_height > max_tip_height sessions - 2 then
        { s with last_good := now }
      else s) = _
  exact congrArg (fun f => List.map f sessions)
    (funext fun s => if_congr (by omega) rfl rfl)

/-- C7: the retry delay after k consecutive reconnect attempts equals the
k-th iterate of the recurrence r(k+1) = clamp(2 r(k) + 1, 10, 600) with
r(0) = 0; the resulting sequence is 10, 21, 43, 87, 175, 351, 600 and stays
at 600 from the seventh attempt on. -/
theorem claim_C7_retry_delay_sequence :
    (∀ k, retry_delay_after k = spec_retry k) ∧
    [retry_delay_after 1, retry_delay_after 2, retry_delay_after 3,
      retry_delay_after 4, retry_delay_after 5, retry_delay_after 6,
      retry_delay_after 7, retry_delay_after 8] =
      [10, 21, 43, 87, 175, 351, 600, 600] ∧
    ∀ k, retry_delay_after (k + 7) = 600 := by
  refine ⟨?_, by decide, ?_⟩
  · intro k
    induction k with
    | zero => rfl
    | succ n ih =>
        show connect_retry_update (retry_delay_after n) =
          clamp (2 * spec_retry n + 1) 10 600
        rw [ih]
        unfold connect_retry_update clamp
        rw [Nat.mul_comm]
  · intro k
    induction k with
    | zero => decide
    | succ n ih =>
        show connect_retry_update (retry_delay_after (n + 7)) = 600
        rw [ih]
        decide

/-- C8: SVServer.unique is claimed to fail with ValueError for any protocol
string other than the two codes "s" and "t", for example "" or "st".  The
constructor check is the Python substring test "protocol not in 'st'", which
the empty string and "st" both pass, so both are accepted and interned
instead of raising; a genuinely foreign string such as "x" is rejected.  This
theorem evaluates the code at the failing inputs. -/
theorem claim_C8_substring_protocol_check :
    SVServer.unique [] "host" 50001 "" = .ok [("host", 50001, "")] ∧
    SVServer.unique [] "host" 50001 "st" = .ok [("host", 50001, "st")] ∧
    SVServer.unique [] "host" 50001 "x" = .error "unknown protocol: x" ∧
    SVServer.unique [] "host" 50001 "s" = .ok [("host", 50001, "s")] := by
  exact ⟨rfl, rfl, rfl, rfl⟩

/-- C9, counterexample: a state whose last_try is the non-integer timestamp
3/2 round-trips through to_json (which applies int()) to last_try = 1, so the
round trip does not preserve non-integer timestamps. -/
theorem claim_C9_counterexample :
    (SVServerState.from_json (SVServerState.to_json
        { SVServerState.init with last_try := 3/2 })).last_try ≠
      ({ SVServerState.init with last_try := 3/2 } : SVServerState).last_try := by
  have hf : ⌊(3/2 : ℚ)⌋ = 1 := by
    rw [Int.floor_eq_iff]
    norm_num
  have h0 : (0 : ℚ) ≤ 3/2 := by norm_num
  simp [SVServerState.from_json, SVServerState.to_json, SVServerState.init,
    pyInt, h0, hf]
  norm_num

/-- Python int() of an integral rational is the integer itself. -/
theorem pyInt_intCast (n : ℤ) : pyInt (n : ℚ) = n := by
  unfold pyInt
  split
  · exact Int.floor_intCast n
  · exact Int.ceil_intCast n

/-- C9, amended: the to_json / from_json round trip preserves the three
timestamp fields whenever each of them is an integer (in general each field
comes back as its int() truncation). -/
theorem claim_C9_roundtrip_integral (s : SVServerState)
    (h1 : ∃ n : ℤ, s.last_try = (n : ℚ))
    (h2 : ∃ n : ℤ, s.last_good = (n : ℚ))
    (h3 : ∃ n : ℤ, s.last_blacklisted = (n : ℚ)) :
    (SVServerState.from_json s.to_json).last_try = s.last_try ∧
    (SVServerState.from_json s.to_json).last_good = s.last_good ∧
    (SVServerState.from_json s.to_json).last_blacklisted = s.last_blacklisted := by
  obtain ⟨a, ha⟩ := h1
  obtain ⟨b, hb⟩ := h2
  obtain ⟨c, hc⟩ := h3
  simp [SVServerState.from_json, SVServerState.to_json, ha, hb, hc,
    pyInt_intCast]

/-- C9, witness for the amended round-trip theorem on an integral state. -/
theorem claim_C9_witness :
    (SVServerState.from_json (SVServerState.to_json
        { SVServerState.init with last_try := 5, last_good := 7 })).last_try =
      ({ SVServerState.init with last_try := 5, last_good := 7 }
        : SVServerState).last_try ∧
    (SVServerState.from_json (SVServerState.to_json
        { SVServerState.init with last_try := 5, last_good := 7 })).last_good =
      ({ SVServerState.init with last_try := 5, last_good := 7 }
        : SVServerState).last_good ∧
    (SVServerState.from_json (SVServerState.to_json
        { SVServerState.init with last_try := 5, last_good := 7 })).last_blacklisted =
      ({ SVServerState.init with last_try := 5, last_good := 7 }
        : SVServerState).last_blacklisted :=
  claim_C9_roundtrip_integral _ ⟨5, by norm_num [SVServerState.init]⟩
    ⟨7, by norm_num [SVServerState.init]⟩ ⟨0, by norm_num [SVServerState.init]⟩

/-- Every script hash for which unsubscribe_from_pairs issues a network
unsubscribe lies in the exclusive set of the wallet's subs list. -/
theorem unsubscribe_from_pairs_issued {st : SubsState} {wallet : ℕ}
    {pairs : List (String × String)} {out : SubsState × List String}
    (heq : unsubscribe_from_pairs st wallet pairs = some out) :
    ∃ subs, lookupW st.subs_by_wallet wallet = some subs ∧
      ∀ sh ∈ out.2, sh ∈ get_exclusive_set st.subs_by_wallet wallet subs := by
  cases hl : lookupW st.subs_by_wallet wallet with
  | none => simp [unsubscribe_from_pairs, hl] at heq
  | some subs =>
      simp only [unsubscribe_from_pairs, hl] at heq
      obtain rfl : _ = out := Option.some.inj heq
      refine ⟨subs, rfl, ?_⟩
      intro sh hsh
      rcases unsubscribe_loop_issued_sub _ pairs subs st.address_map [] sh hsh
        with h | h
      · exact absurd h (List.not_mem_nil sh)
      · exact h

/-- Every script hash for which unsubscribe_wallet issues a network
unsubscribe lies in the exclusive set computed against the table with the
wallet popped, and issuing anything requires the ptuple guard to pass. -/
theorem unsubscribe_wallet_issued {st : SubsState} {wallet : ℕ} {hs : Bool}
    {pt : List ℕ} {sh : String}
    (h : sh ∈ (unsubscribe_wallet st wallet hs pt).2) :
    pyTupleLt pt [1, 4, 2] = false ∧
    ∃ subs, lookupW st.subs_by_wallet wallet = some subs ∧
      sh ∈ get_exclusive_set (eraseW st.subs_by_wallet wallet) wallet subs := by
  cases hl : lookupW st.subs_by_wallet wallet with
  | none => simp [unsubscribe_wallet, hl] at h
  | some subs =>
      simp only [unsubscribe_wallet, hl] at h
      split at h
      · exact absurd h (List.not_mem_nil sh)
      · split at h
        · exact absurd h (List.not_mem_nil sh)
        · split at h
          · exact absurd h (List.not_mem_nil sh)
          · rename_i hguard
            exact ⟨by simpa using hguard, subs, rfl, h⟩

/-- C6, counterexample: unsubscribe_from_pairs never consults the session's
negotiated ptuple.  With a single wallet holding script hash S exclusively, a
session whose ptuple is (1, 4, 1) — below the (1, 4, 2) required by the
claim — still issues the blockchain.scripthash.unsubscribe request for S
when unsubscribe_from_pairs runs, because the guard exists only in
unsubscribe_wallet. -/
theorem claim_C6_counterexample :
    unsubscribe_from_pairs ⟨[(1, ["S"])], [("S", "A")]⟩ 1 [("A", "S")] =
      some (⟨[(1, [])], []⟩, ["S"]) ∧
    pyTupleLt [1, 4, 1] [1, 4, 2] = true := by
  exact ⟨by decide, by decide⟩

/-- C6, amended: a blockchain.scripthash.unsubscribe request for a script
hash S is issued only when S is exclusively held by the wallet being
unsubscribed (S is in that wallet's subscription list and in no other
wallet's); the ptuple >= (1, 4, 2) requirement applies to unsubscribe_wallet
(which issues nothing below it) but not to unsubscribe_from_pairs.  In the
scenario of the claim, with W1 and W2 both subscribed to S and a session at
ptuple (1, 4, 2), unsubscribing W1 issues no unsubscribe for S and
unsubscribing W2 afterwards issues it. -/
theorem claim_C6_exclusive_unsubscribe :
    (∀ (st : SubsState) (wallet : ℕ) (pairs : List (String × String))
        (out : SubsState × List String) (sh : String),
        unsubscribe_from_pairs st wallet pairs = some out → sh ∈ out.2 →
        (∃ subs, lookupW st.subs_by_wallet wallet = some subs ∧ sh ∈ subs) ∧
          ∀ p ∈ st.subs_by_wallet, p.1 ≠ wallet → sh ∉ p.2) ∧
    (∀ (st : SubsState) (wallet : ℕ) (hs : Bool) (pt : List ℕ) (sh : String),
        sh ∈ (unsubscribe_wallet st wallet hs pt).2 →
        pyTupleLt pt [1, 4, 2] = false ∧
          (∃ subs, lookupW st.subs_by_wallet wallet = some subs ∧ sh ∈ subs) ∧
          ∀ p ∈ st.subs_by_wallet, p.1 ≠ wallet → sh ∉ p.2) ∧
    (unsubscribe_wallet ⟨[(1, ["S"]), (2, ["S"])], [("S", "A")]⟩ 1 true
        [1, 4, 2] = (⟨[(2, ["S"])], [("S", "A")]⟩, []) ∧
      unsubscribe_wallet ⟨[(2, ["S"])], [("S", "A")]⟩ 2 true [1, 4, 2] =
        (⟨[], [("S", "A")]⟩, ["S"])) := by
  refine ⟨?_, ?_, by decide, by decide⟩
  · intro st wallet pairs out sh heq hmem
    obtain ⟨subs, hl, hsub⟩ := unsubscribe_from_pairs_issued heq
    obtain ⟨h1, h2⟩ := mem_exclusive (hsub sh hmem)
    exact ⟨⟨subs, hl, h1⟩, h2⟩
  · intro st wallet hs pt sh h
    obtain ⟨hpt, subs, hl, hex⟩ := unsubscribe_wallet_issued h
    obtain ⟨h1, h2⟩ := mem_exclusive hex
    refine ⟨hpt, ⟨subs, hl, h1⟩, ?_⟩
    intro p hp hne
    exact h2 p (mem_eraseW_of_ne hp hne) hne

/-- C6, witness: applying the amended theorem's unsubscribe_from_pairs part
at a wallet exclusively holding S shows S was in that wallet's list and in no
other wallet's. -/
theorem claim_C6_witness :
    (∃ subs, lookupW [(1, ["S"])] 1 = some subs ∧ "S" ∈ subs) ∧
    ∀ p ∈ ([(1, ["S"])] : List (ℕ × List String)), p.1 ≠ 1 → "S" ∉ p.2 :=
  claim_C6_exclusive_unsubscribe.1 ⟨[(1, ["S"])], [("S", "A")]⟩ 1 [("A", "S")]
    (⟨[(1, [])], []⟩, ["S"]) "S" (by decide) (by decide)

/-- C10, counterexample: if the wallet's existing subscription list already
contains a duplicate (here ["a", "a"]), then even with pairwise-distinct new
script hashes none of which is already present, the list checked by the
assertion at the end of subscribe_to_pairs still has duplicates, so the
assertion fails.  The claim omits the precondition that the existing list is
itself duplicate-free. -/
theorem claim_C10_counterexample :
    (([("B", "b")] : List (String × String)).map (fun p => p.2)).Nodup ∧
    (∀ sh ∈ (([("B", "b")] : List (String × String)).map (fun p => p.2)),
      sh ∉ (lookupW [(1, ["a", "a"])] 1).getD []) ∧
    ¬ (subscribe_to_pairs_subs ⟨[(1, ["a", "a"])], []⟩ 1 [("B", "b")]).Nodup := by
  exact ⟨by decide, by decide, by decide⟩

/-- C10, amended: if the script hashes in pairs are pairwise distinct, none
of them is already in the wallet's subscription list, and that list is itself
duplicate-free, then the list checked by the final assertion of
subscribe_to_pairs has no duplicates (so the assertion passes), and it is
exactly the wallet's entry in the updated table. -/
theorem claim_C10_assertion_nodup (st : SubsState) (wallet : ℕ)
    (pairs : List (String × String))
    (hpairs : (pairs.map (fun p => p.2)).Nodup)
    (hnew : ∀ sh ∈ pairs.map (fun p => p.2),
      sh ∉ (lookupW st.subs_by_wallet wallet).getD [])
    (hold : ((lookupW st.subs_by_wallet wallet).getD []).Nodup) :
    (subscribe_to_pairs_subs st wallet pairs).Nodup ∧
    lookupW (subscribe_to_pairs st wallet pairs).subs_by_wallet wallet =
      some (subscribe_to_pairs_subs st wallet pairs) := by
  constructor
  · exact hold.append hpairs (fun a ha hb => hnew a hb ha)
  · exact lookupW_setW _ _ _

/-- C10, witness for the amended theorem on a concrete state. -/
theorem claim_C10_witness :
    (subscribe_to_pairs_subs ⟨[(1, ["a"])], [("a", "A")]⟩ 1 [("B", "b")]).Nodup ∧
    lookupW (subscribe_to_pairs ⟨[(1, ["a"])], [("a", "A")]⟩ 1
        [("B", "b")]).subs_by_wallet 1 =
      some (subscribe_to_pairs_subs ⟨[(1, ["a"])], [("a", "A")]⟩ 1 [("B", "b")]) :=
  claim_C10_assertion_nodup ⟨[(1, ["a"])], [("a", "A")]⟩ 1 [("B", "b")]
    (by decide) (by decide) (by decide)

end ElectrumSV
